import Mathlib

/-! NekiraReflect: runtime type descriptors, the global registry and the downcast helpers.

A shallow embedding of
* `DynamicReflect/TypeCollection/DynamicTypeInfo.hpp` (descriptor hierarchy, casts),
* `DynamicReflect/TypeRegist/TypeInfoRegistry.hpp` (registry, `RegistEnumTypeInfo`),
* `TypeExtraction/VariableTraits.hpp` (compile-time trait extraction).

Modelling conventions.
* Objects created by `std::make_shared` live in an explicit heap (a list of objects, the
  address of an object is its index).  Allocation appends and never fails; objects are never
  removed (an object whose last owner disappears is unreachable, so this is unobservable).
* A raw pointer is `Option Nat` (`none` is `nullptr`); a `std::shared_ptr` is its stored pointer.
  Use counts are not modelled.  Reading through a pointer that addresses no object is undefined
  behaviour in C++; the model answers as for `nullptr`.
* `size_t` is an unsigned `w`-bit integer, a `Nat` with conversions reduced modulo `2 ^ w`.
* `std::unordered_map` is an association list; only `find` and `operator[]`-assignment are used
  by the source, so iteration order is never observed.
* Class templates are functions on type terms.  An instantiation that the language rejects
  (an ambiguous choice of partial specialisation) is a value of its own, not a type.
-/

namespace NekiraReflect

/-! ## Machine integers -/

/-- Conversion of an integer to a `w`-bit `size_t` (reduction modulo `2 ^ w`). -/
def toSizeT (w : Nat) (i : Int) : Nat := (i % (2 ^ w : Int)).toNat

/-! ## DynamicTypeInfo.hpp: descriptor hierarchy -/

/-- The class `DynamicTypeInfo`: the base descriptor holding the private field `Name`. -/
structure DynamicTypeInfo where
  Name : String
deriving DecidableEq, Repr

/-- The method `DynamicTypeInfo::GetName`. -/
def DynamicTypeInfo.GetName (self : DynamicTypeInfo) : String := self.Name

/-- The scoped enumeration `NumericTypeInfo::NumericCategory`.  A scoped enumeration without
an explicit underlying type has underlying type `int`, and any value of the underlying type
can be converted to it, so a category is kept as its integer value. -/
structure NumericCategory where
  val : Int
deriving DecidableEq, Repr

namespace NumericCategory

/-- Enumerator `Unknown` (value 0). -/
def Unknown : NumericCategory := ⟨0⟩
/-- Enumerator `Int8` (value 1). -/
def Int8 : NumericCategory := ⟨1⟩
/-- Enumerator `Int16` (value 2). -/
def Int16 : NumericCategory := ⟨2⟩
/-- Enumerator `Int32` (value 3). -/
def Int32 : NumericCategory := ⟨3⟩
/-- Enumerator `Int64` (value 4). -/
def Int64 : NumericCategory := ⟨4⟩
/-- Enumerator `Float` (value 5). -/
def Float : NumericCategory := ⟨5⟩
/-- Enumerator `Double` (value 6). -/
def Double : NumericCategory := ⟨6⟩

end NumericCategory

/-- The class `NumericTypeInfo`: a `DynamicTypeInfo` with `Category` and `IsSigned`. -/
structure NumericTypeInfo extends DynamicTypeInfo where
  Category : NumericCategory
  IsSigned : Bool
deriving DecidableEq, Repr

/-- The private static method `NumericTypeInfo::GetCategoryName`: the `switch` over the
category with its `default` branch. -/
def NumericTypeInfo.GetCategoryName (category : NumericCategory) : String :=
  if category = NumericCategory.Int8 then "int8"
  else if category = NumericCategory.Int16 then "int16"
  else if category = NumericCategory.Int32 then "int32"
  else if category = NumericCategory.Int64 then "int64"
  else if category = NumericCategory.Float then "float"
  else if category = NumericCategory.Double then "double"
  else "Unknown"

/-- The constructor `NumericTypeInfo(NumericCategory category, bool isSigned)`: the base is
initialised with `GetCategoryName(category)`. -/
def NumericTypeInfo.ctor (category : NumericCategory) (isSigned : Bool) :
    NumericTypeInfo :=
  { Name := NumericTypeInfo.GetCategoryName category, Category := category, IsSigned := isSigned }

/-- The method `NumericTypeInfo::GetTypeCategory`. -/
def NumericTypeInfo.GetTypeCategory (self : NumericTypeInfo) : NumericCategory := self.Category

/-- The method `NumericTypeInfo::IsSignedType`. -/
def NumericTypeInfo.IsSignedType (self : NumericTypeInfo) : Bool := self.IsSigned

/-- The method `GetName` inherited by `NumericTypeInfo`. -/
def NumericTypeInfo.GetName (self : NumericTypeInfo) : String := self.toDynamicTypeInfo.GetName

/-- The struct `EnumTypeInfo::EnumPair`. -/
structure EnumPair where
  Name : String
  Value : Nat
deriving DecidableEq, Repr

/-- The class `EnumTypeInfo`: a `DynamicTypeInfo` with the private vector `Enums`. -/
structure EnumTypeInfo extends DynamicTypeInfo where
  Enums : List EnumPair
deriving DecidableEq, Repr

namespace EnumTypeInfo

/-- The constructor `EnumTypeInfo(const std::string& EnumTypeName)`: `Enums` starts empty. -/
def ctor (EnumTypeName : String) : EnumTypeInfo :=
  { Name := EnumTypeName, Enums := [] }

/-- The method `GetName` inherited by `EnumTypeInfo`. -/
def GetName (self : EnumTypeInfo) : String := self.toDynamicTypeInfo.GetName

/-- The method `EnumTypeInfo::AddEnumPair`: `Enums.push_back(EnumPair{name, value})`. -/
def AddEnumPair (self : EnumTypeInfo) (name : String) (value : Nat) : EnumTypeInfo :=
  { self with Enums := self.Enums ++ [{ Name := name, Value := value }] }

/-- The method `EnumTypeInfo::GetEnumCount`: `Enums.size()`. -/
def GetEnumCount (self : EnumTypeInfo) : Nat := self.Enums.length

/-- The range-for loop of `GetEnumValueByName` over the remaining pairs; `Result` is the
local variable, assigned once right before `break`. -/
def GetEnumValueByName.loop (name : String) : List EnumPair → Nat → Nat
  | [], Result => Result
  | pair :: rest, Result =>
    if pair.Name = name then pair.Value else GetEnumValueByName.loop name rest Result

/-- The method `EnumTypeInfo::GetEnumValueByName` for a `w`-bit `size_t`:
`size_t Result = -1;` followed by the loop. -/
def GetEnumValueByName (w : Nat) (self : EnumTypeInfo) (name : String) : Nat :=
  GetEnumValueByName.loop name self.Enums (toSizeT w (-1))

/-- The range-for loop of `GetEnumNameByValue` over the remaining pairs. -/
def GetEnumNameByValue.loop (value : Nat) : List EnumPair → String → String
  | [], Result => Result
  | pair :: rest, Result =>
    if pair.Value = value then pair.Name else GetEnumNameByValue.loop value rest Result

/-- The method `EnumTypeInfo::GetEnumNameByValue`: `std::string Result = "Unknown";`
followed by the loop. -/
def GetEnumNameByValue (self : EnumTypeInfo) (value : Nat) : String :=
  GetEnumNameByValue.loop value self.Enums "Unknown"

end EnumTypeInfo

/-- The class `ClassTypeInfo`: a `DynamicTypeInfo` without further members. -/
structure ClassTypeInfo extends DynamicTypeInfo where
deriving DecidableEq, Repr

/-! ## The numeric category classifier over a model of C++ types -/

/-- A model of C++ types: the fundamental types, class or enumeration types identified by
name, and the compound types formed by cv-qualification, references, pointers, arrays of
known bound and pointers to data members. -/
inductive CppType
  | void
  | bool
  | char
  | signed_char
  | unsigned_char
  | wchar_t
  | char16_t
  | char32_t
  | short
  | unsigned_short
  | int
  | unsigned_int
  | long
  | unsigned_long
  | long_long
  | unsigned_long_long
  | float
  | double
  | long_double
  | named (name : String)
  | const (T : CppType)
  | volatile (T : CppType)
  | lref (T : CppType)
  | rref (T : CppType)
  | pointer (T : CppType)
  | array (T : CppType) (N : Nat)
  | member_pointer (ClassType : CppType) (MemberType : CppType)
deriving DecidableEq, Repr

/-- The trait `std::is_same_v<T, U>`.  It is used by the source only with `U` one of six
unqualified fundamental types; no compound type is the same type as one of those, so the
comparison of the type terms decides it. -/
def is_same_v (T U : CppType) : Bool := decide (T = U)

/-- The private static template `NumericTypeInfo::type_category_v<T>`: the chain of
`if constexpr (std::is_same_v<T, ...>)`. -/
def NumericTypeInfo.type_category_v (T : CppType) : NumericCategory :=
  if is_same_v T CppType.char then NumericCategory.Int8
  else if is_same_v T CppType.short then NumericCategory.Int16
  else if is_same_v T CppType.int then NumericCategory.Int32
  else if is_same_v T CppType.long_long then NumericCategory.Int64
  else if is_same_v T CppType.float then NumericCategory.Float
  else if is_same_v T CppType.double then NumericCategory.Double
  else NumericCategory.Unknown

/-- The fundamental types that the pointer-sized integer typedef names `size_t`, `ptrdiff_t`,
`intptr_t` and `uintptr_t` denote.  They are declared by the headers of the platform, not by
this repository, so they are a parameter of the classifier; a typedef name is not a type of
its own and `type_category_v` sees the type it names. -/
structure DataModel where
  size_t : CppType
  ptrdiff_t : CppType
  intptr_t : CppType
  uintptr_t : CppType
deriving DecidableEq, Repr

/-- The pointer-sized integer types of a data model. -/
def DataModel.pointer_sized (M : DataModel) : List CppType :=
  [M.size_t, M.ptrdiff_t, M.intptr_t, M.uintptr_t]

/-- The data model LP64 (64-bit Linux and macOS): pointer-sized integers are `long`. -/
def DataModel.LP64 : DataModel :=
  { size_t := CppType.unsigned_long, ptrdiff_t := CppType.long,
    intptr_t := CppType.long, uintptr_t := CppType.unsigned_long }

/-- The data model LLP64 (64-bit Windows): pointer-sized integers are `long long`. -/
def DataModel.LLP64 : DataModel :=
  { size_t := CppType.unsigned_long_long, ptrdiff_t := CppType.long_long,
    intptr_t := CppType.long_long, uintptr_t := CppType.unsigned_long_long }

/-- The data model ILP32 (32-bit Linux): pointer-sized integers are `int`. -/
def DataModel.ILP32 : DataModel :=
  { size_t := CppType.unsigned_int, ptrdiff_t := CppType.int,
    intptr_t := CppType.int, uintptr_t := CppType.unsigned_int }

/-! ## Heap objects, pointers and the checked downcasts -/

/-- The classes of the descriptor hierarchy, used as the target of a cast and as the dynamic
type of an object. -/
inductive TypeId
  | DynamicTypeInfo
  | NumericTypeInfo
  | EnumTypeInfo
  | ClassTypeInfo
deriving DecidableEq, Repr

/-- A complete object of the hierarchy, tagged by its most derived class. -/
inductive Object
  | Dynamic (o : DynamicTypeInfo)
  | Numeric (o : NumericTypeInfo)
  | Enum (o : EnumTypeInfo)
  | Class (o : ClassTypeInfo)
deriving DecidableEq, Repr

/-- The dynamic type of an object. -/
def Object.typeid : Object → TypeId
  | .Dynamic _ => TypeId.DynamicTypeInfo
  | .Numeric _ => TypeId.NumericTypeInfo
  | .Enum _ => TypeId.EnumTypeInfo
  | .Class _ => TypeId.ClassTypeInfo

/-- The `DynamicTypeInfo` base subobject of an object. -/
def Object.base : Object → DynamicTypeInfo
  | .Dynamic o => o
  | .Numeric o => o.toDynamicTypeInfo
  | .Enum o => o.toDynamicTypeInfo
  | .Class o => o.toDynamicTypeInfo

/-- The heap: the object at address `a` is the `a`-th element. -/
abbrev Heap := List Object

/-- A raw pointer to a descriptor; `none` is `nullptr`. -/
abbrev RawPtr := Option Nat

/-- A `std::shared_ptr` to a descriptor, reduced to its stored pointer. -/
structure SharedPtr where
  get : RawPtr
deriving DecidableEq, Repr

/-- The empty `std::shared_ptr`. -/
def SharedPtr.null : SharedPtr := ⟨none⟩

/-- Whether class `U` is `T` or derives from `T`: every class derives from `DynamicTypeInfo`
and there is no other inheritance. -/
def TypeId.is_base_of (T U : TypeId) : Bool :=
  decide (T = TypeId.DynamicTypeInfo) || decide (T = U)

/-- The expression `dynamic_cast<T*>(p)` for `p` of type `DynamicTypeInfo*`: the identity when
`T` is `DynamicTypeInfo` itself, otherwise a check of the dynamic type of the object. -/
def dynamic_cast (T : TypeId) (heap : Heap) (p : RawPtr) : RawPtr :=
  if T = TypeId.DynamicTypeInfo then p
  else
    match p with
    | none => none
    | some a =>
      match heap[a]? with
      | none => none
      | some o => if T.is_base_of o.typeid then some a else none

/-- The function `std::dynamic_pointer_cast<T>(r)`: when `dynamic_cast<T*>(r.get())` is not
null the result shares ownership with `r` and stores that pointer, otherwise it is empty. -/
def dynamic_pointer_cast (T : TypeId) (heap : Heap) (r : SharedPtr) : SharedPtr :=
  match dynamic_cast T heap r.get with
  | some p => ⟨some p⟩
  | none => SharedPtr.null

/-- The overload `T* CastDynamicTypeInfo(DynamicTypeInfo* TypeInfo)`. -/
def CastDynamicTypeInfo_raw (T : TypeId) (heap : Heap) (TypeInfo : RawPtr) : RawPtr :=
  dynamic_cast T heap TypeInfo

/-- The overload
`std::shared_ptr<T> CastDynamicTypeInfo(const std::shared_ptr<DynamicTypeInfo>& TypeInfo)`. -/
def CastDynamicTypeInfo_shared (T : TypeId) (heap : Heap) (TypeInfo : SharedPtr) : SharedPtr :=
  dynamic_pointer_cast T heap TypeInfo

/-- The function `std::make_shared`: a new object at a fresh address. -/
def make_shared (heap : Heap) (o : Object) : Heap × SharedPtr :=
  (heap ++ [o], ⟨some heap.length⟩)

/-- The static method `EnumTypeInfo::Create`: `std::make_shared<EnumTypeInfo>(EnumTypeName)`. -/
def EnumTypeInfo.Create (heap : Heap) (EnumTypeName : String) : Heap × SharedPtr :=
  make_shared heap (Object.Enum (EnumTypeInfo.ctor EnumTypeName))

/-- The call `p->AddEnumPair(name, value)` through a `std::shared_ptr<EnumTypeInfo>`: the
object addressed by `p` is replaced by the result of the method. -/
def SharedPtr.AddEnumPair (heap : Heap) (p : SharedPtr) (name : String) (value : Nat) : Heap :=
  match p.get with
  | none => heap
  | some a =>
    match heap[a]? with
    | some (Object.Enum e) => heap.set a (Object.Enum (e.AddEnumPair name value))
    | _ => heap

/-- The enumeration descriptor a pointer refers to, if it refers to one. -/
def SharedPtr.asEnum (heap : Heap) (p : SharedPtr) : Option EnumTypeInfo :=
  match p.get with
  | none => none
  | some a =>
    match heap[a]? with
    | some (Object.Enum e) => some e
    | _ => none

/-! ## TypeInfoRegistry.hpp -/

/-- The type `std::unordered_map<std::string, std::shared_ptr<DynamicTypeInfo>>`. -/
abbrev UnorderedMap := List (String × SharedPtr)

/-- The method `find` of the map: the mapped value of the element with the key, or `none` for
the `end()` iterator. -/
def UnorderedMap.find : UnorderedMap → String → Option SharedPtr
  | [], _ => none
  | (k, v) :: rest, key => if k = key then some v else UnorderedMap.find rest key

/-- The statement `m[key] = value`: `operator[]` yields the mapped value of the element with
the key, inserting one when there is none, and the assignment replaces it. -/
def UnorderedMap.assign : UnorderedMap → String → SharedPtr → UnorderedMap
  | [], key, value => [(key, value)]
  | (k, v) :: rest, key, value =>
    if k = key then (k, value) :: rest else (k, v) :: UnorderedMap.assign rest key value

/-- The class `TypeInfoRegistry` with its private member `TypeInfoMap`. -/
structure TypeInfoRegistry where
  TypeInfoMap : UnorderedMap
deriving DecidableEq, Repr

namespace TypeInfoRegistry

/-- The function-local static `instance` of `TypeInfoRegistry::Get` at its initialisation:
the defaulted constructor leaves the map empty. -/
def instance_initial : TypeInfoRegistry := ⟨[]⟩

/-- The const method `TypeInfoRegistry::GetTypeInfo`. -/
def GetTypeInfo (self : TypeInfoRegistry) (TypeName : String) : SharedPtr :=
  match UnorderedMap.find self.TypeInfoMap TypeName with
  | some second => second
  | none => SharedPtr.null

/-- The method `TypeInfoRegistry::RegistTypeInfo`. -/
def RegistTypeInfo (self : TypeInfoRegistry) (TypeName : String) (TypeInfo : SharedPtr) :
    TypeInfoRegistry :=
  { TypeInfoMap := UnorderedMap.assign self.TypeInfoMap TypeName TypeInfo }

end TypeInfoRegistry

/-- The state of the process: the heap and the singleton registry. -/
structure State where
  heap : Heap
  Registry : TypeInfoRegistry
deriving DecidableEq, Repr

/-- The state before the first call: no object, the empty registry. -/
def State.initial : State := { heap := [], Registry := TypeInfoRegistry.instance_initial }

/-- The alias `EnumVector`. -/
abbrev EnumVector := List (String × Nat)

/-- The function `RegistEnumTypeInfo`. -/
def RegistEnumTypeInfo (s : State) (EnumName : String) (EnumPairs : EnumVector) :
    State × SharedPtr :=
  let Info := s.Registry.GetTypeInfo EnumName
  if Info.get ≠ none then
    (s, CastDynamicTypeInfo_shared TypeId.EnumTypeInfo s.heap Info)
  else
    let created := EnumTypeInfo.Create s.heap EnumName
    let NewEnumTypeInfo := created.2
    if NewEnumTypeInfo.get ≠ none then
      let heap2 := EnumPairs.foldl
        (fun h Pair => SharedPtr.AddEnumPair h NewEnumTypeInfo Pair.1 Pair.2) created.1
      ({ heap := heap2, Registry := s.Registry.RegistTypeInfo EnumName NewEnumTypeInfo },
        NewEnumTypeInfo)
    else
      ({ s with heap := created.1 }, NewEnumTypeInfo)

/-- A call of the public interface of the registry. -/
inductive Call
  | GetTypeInfo (TypeName : String)
  | RegistTypeInfo (TypeName : String) (TypeInfo : SharedPtr)
  | RegistEnumTypeInfo (EnumName : String) (EnumPairs : EnumVector)
deriving DecidableEq, Repr

/-- The state after a call and the value it returns (`RegistTypeInfo` returns `void`,
rendered as the empty pointer). -/
def Call.run (s : State) : Call → State × SharedPtr
  | .GetTypeInfo TypeName => (s, s.Registry.GetTypeInfo TypeName)
  | .RegistTypeInfo TypeName TypeInfo =>
    ({ s with Registry := s.Registry.RegistTypeInfo TypeName TypeInfo }, SharedPtr.null)
  | .RegistEnumTypeInfo EnumName EnumPairs => NekiraReflect.RegistEnumTypeInfo s EnumName EnumPairs

/-- The state after a sequence of calls, in order. -/
def runCalls (s : State) (calls : List Call) : State :=
  calls.foldl (fun st c => (c.run st).1) s

/-- The name a call registers under, if it is a registering call. -/
def Call.registeredName : Call → Option String
  | .GetTypeInfo _ => none
  | .RegistTypeInfo TypeName _ => some TypeName
  | .RegistEnumTypeInfo EnumName _ => some EnumName

/-- The conversion of an `EnumVector` element to the `EnumPair` that `AddEnumPair` stores. -/
def toEnumPair (Pair : String × Nat) : EnumPair := { Name := Pair.1, Value := Pair.2 }

/-! ## VariableTraits.hpp: compile-time trait extraction

Type terms are written in the following normal form: of two cv-qualifiers `const` is the outer
one (`const (volatile T)` is `const volatile T`), the cv-qualifiers of an array are written on
its element type (`array (const T) N` is `const T[N]`), and a reference carries no
cv-qualifier. -/

/-- Whether a type is a reference type. -/
def CppType.is_reference : CppType → Bool
  | .lref _ => true
  | .rref _ => true
  | _ => false

/-- Whether a type is (possibly cv-qualified) `void`. -/
def CppType.is_void : CppType → Bool
  | .void => true
  | .const T => T.is_void
  | .volatile T => T.is_void
  | _ => false

/-- Whether a type term is headed by a cv-qualifier or is an array (the forms that the normal
form forbids directly below `volatile`). -/
def CppType.is_cv_or_array : CppType → Bool
  | .const _ => true
  | .volatile _ => true
  | .array _ _ => true
  | _ => false

/-- Whether a type term is headed by `const` or is an array (the forms that the normal form
forbids directly below `const`). -/
def CppType.is_const_or_array : CppType → Bool
  | .const _ => true
  | .array _ _ => true
  | _ => false

/-- Whether a type term is a class type. -/
def CppType.is_class : CppType → Bool
  | .named _ => true
  | _ => false

/-- Well-formed type terms in normal form: there is no reference to a reference or to `void`,
no pointer to a reference, no array of references, of `void` or of bound zero, no pointer to a
member of reference type or of type `void`, and a pointer to member belongs to a class. -/
def CppType.valid : CppType → Bool
  | .const T => T.valid && !T.is_reference && !T.is_const_or_array
  | .volatile T => T.valid && !T.is_reference && !T.is_cv_or_array
  | .lref T => T.valid && !T.is_reference && !T.is_void
  | .rref T => T.valid && !T.is_reference && !T.is_void
  | .pointer T => T.valid && !T.is_reference
  | .array T N => T.valid && !T.is_reference && !T.is_void && decide (0 < N)
  | .member_pointer C V => C.is_class && V.valid && !V.is_reference && !V.is_void
  | _ => true

/-- The member typedefs of `member_variable_traits<T>`. -/
structure MemberVariableTraits where
  Type_ : CppType
  ObjectType : CppType
deriving DecidableEq, Repr

/-- The class template `member_variable_traits<T>`: the partial specialisation for
`MemberType ClassType::*` when `T` has this form, the primary template otherwise. -/
def member_variable_traits (T : CppType) : MemberVariableTraits :=
  match T with
  | .member_pointer ClassType MemberType => { Type_ := MemberType, ObjectType := ClassType }
  | _ => { Type_ := T, ObjectType := CppType.void }

/-- Deduction of `T` from the pattern `const T` of the partial specialisation
`raw_type<const T>`: the argument must be const-qualified, also below `volatile`; an array is
const-qualified when its elements are. -/
def raw_type.match_const : CppType → Option CppType
  | .const Y => some Y
  | .volatile Y => (raw_type.match_const Y).map CppType.volatile
  | .array E N => (raw_type.match_const E).map (fun E1 => CppType.array E1 N)
  | _ => none

/-- Deduction of `T` from the pattern `volatile T` of `raw_type<volatile T>`: the argument
must be volatile-qualified, also below `const` and as an array of volatile elements. -/
def raw_type.match_volatile : CppType → Option CppType
  | .volatile Y => some Y
  | .const Y => (raw_type.match_volatile Y).map CppType.const
  | .array E N => (raw_type.match_volatile E).map (fun E1 => CppType.array E1 N)
  | _ => none

/-- Deduction of `T` from the pattern `T&` of `raw_type<T&>`. -/
def raw_type.match_lref : CppType → Option CppType
  | .lref Y => some Y
  | _ => none

/-- Deduction of `T` from the pattern `T&&` of `raw_type<T&&>`. -/
def raw_type.match_rref : CppType → Option CppType
  | .rref Y => some Y
  | _ => none

/-- Deduction of `T` from the pattern `T*` of `raw_type<T*>`. -/
def raw_type.match_pointer : CppType → Option CppType
  | .pointer Y => some Y
  | _ => none

/-- Deduction of `T` from the pattern `T[N]` of `raw_type<T[N]>`; a cv-qualifier written on
an array belongs to its elements. -/
def raw_type.match_array : CppType → Option CppType
  | .array E _ => some E
  | .const Y => (raw_type.match_array Y).map CppType.const
  | .volatile Y => (raw_type.match_array Y).map CppType.volatile
  | _ => none

/-- The partial specialisations of `raw_type` that match the argument, in the order of the
source, each given by the type deduced for its parameter `T`. -/
def raw_type.candidates (X : CppType) : List CppType :=
  (raw_type.match_const X).toList ++ (raw_type.match_volatile X).toList ++
  (raw_type.match_lref X).toList ++ (raw_type.match_rref X).toList ++
  (raw_type.match_pointer X).toList ++ (raw_type.match_array X).toList

/-- The outcome of naming `raw_type<X>::Type`. -/
inductive raw_type.Result
  | Type_ (T : CppType)
  | ambiguous
  | unfinished
deriving DecidableEq, Repr

/-- Instantiation of `raw_type<X>` with a bound on the number of nested instantiations.
Without a matching partial specialisation the primary template gives `Type = X`; a single
matching one derives from `raw_type<T>` and inherits its `Type`; with several matching ones,
none of which is more specialised than another (each pattern applies a different type
constructor to `T`), the instantiation is ambiguous and the program is ill-formed. -/
def raw_type.go : Nat → CppType → raw_type.Result
  | 0, _ => raw_type.Result.unfinished
  | fuel + 1, X =>
    match raw_type.candidates X with
    | [] => raw_type.Result.Type_ X
    | [T] => raw_type.go fuel T
    | _ => raw_type.Result.ambiguous

/-- The number of nested cv-qualifiers, references, pointers and arrays at the head of a type
term. -/
def CppType.wrappers : CppType → Nat
  | .const T => T.wrappers + 1
  | .volatile T => T.wrappers + 1
  | .lref T => T.wrappers + 1
  | .rref T => T.wrappers + 1
  | .pointer T => T.wrappers + 1
  | .array T _ => T.wrappers + 1
  | _ => 0

/-- The class template `raw_type<X>`, member `Type`: every instantiation removes one wrapper,
so one more instantiation than there are wrappers is enough. -/
def raw_type (X : CppType) : raw_type.Result := raw_type.go (X.wrappers + 1) X

/-- The member typedefs of `variable_traits_base<T>`. -/
structure VariableTraits where
  RawType : CppType
  ValueType : CppType
  ClassType : CppType
deriving DecidableEq, Repr

/-- The class template `variable_traits_base<T>`.  Its instantiation instantiates the three
alias declarations, among them `raw_type<member_variable_traits<T>::Type>::Type`; when that
is not a type the program is ill-formed and there is no specialisation (`none`). -/
def variable_traits_base (T : CppType) : Option VariableTraits :=
  match raw_type (member_variable_traits T).Type_ with
  | .Type_ R =>
    some { RawType := R, ValueType := T, ClassType := (member_variable_traits T).ObjectType }
  | _ => none

/-- The class template `variable_traits<T>`, derived from `variable_traits_base<T>`. -/
def variable_traits (T : CppType) : Option VariableTraits := variable_traits_base T

/-- The alias template `variable_traits_RawType<T>`. -/
def variable_traits_RawType (T : CppType) : Option CppType :=
  (variable_traits T).map VariableTraits.RawType

/-- The alias template `variable_traits_ValueType<T>`. -/
def variable_traits_ValueType (T : CppType) : Option CppType :=
  (variable_traits T).map VariableTraits.ValueType

/-- The alias template `variable_traits_ObjectType<T>`. -/
def variable_traits_ObjectType (T : CppType) : Option CppType :=
  (variable_traits T).map VariableTraits.ClassType

/-- The class type `Foo` of the examples. -/
def Foo : CppType := CppType.named "Foo"

/-! ## Running examples -/

/-- The descriptor of the running example: entries `("A",1), ("B",2), ("C",1)` in this order. -/
def exampleEnum : EnumTypeInfo :=
  { Name := "E", Enums := [⟨"A", 1⟩, ⟨"B", 2⟩, ⟨"C", 1⟩] }

/-- A heap holding a numeric descriptor at address 0 and an enumeration descriptor at
address 1. -/
def exampleHeap : Heap :=
  [Object.Numeric (NumericTypeInfo.ctor NumericCategory.Int32 true), Object.Enum exampleEnum]

/-- A state whose heap is the example heap and whose registry holds the numeric descriptor
under `"N"`, the enumeration descriptor under `"E"` and a null pointer under `"Z"`. -/
def exampleState : State :=
  { heap := exampleHeap,
    Registry := { TypeInfoMap := [("N", ⟨some 0⟩), ("E", ⟨some 1⟩), ("Z", SharedPtr.null)] } }

end NekiraReflect

/-! ## Auxiliary facts -/

namespace NekiraReflect

theorem toSizeT_neg_one (w : Nat) : toSizeT w (-1) = 2 ^ w - 1 := by
  unfold toSizeT
  have hpos : 0 < 2 ^ w := Nat.two_pow_pos w
  have hcast : ((2 : Int) ^ w) = ((2 ^ w : Nat) : Int) := by push_cast; rfl
  rw [hcast]
  generalize 2 ^ w = m at hpos
  have hmod : (-1 : Int) % (m : Int) = (m : Int) - 1 := by
    rw [← Int.add_emod_self]
    have : (-1 : Int) + (m : Int) = (m : Int) - 1 := by ring
    rw [this]
    exact Int.emod_eq_of_lt (by omega) (by omega)
  rw [hmod]
  omega

theorem GetEnumValueByName_loop_miss (name : String) (l : List EnumPair) (r : Nat)
    (h : ∀ q ∈ l, q.Name ≠ name) : EnumTypeInfo.GetEnumValueByName.loop name l r = r := by
  induction l with
  | nil => rfl
  | cons q rest ih =>
    have hq : q.Name ≠ name := h q (List.mem_cons_self _ _)
    simp only [EnumTypeInfo.GetEnumValueByName.loop, hq, if_false]
    exact ih (fun x hx => h x (List.mem_cons_of_mem _ hx))

theorem GetEnumValueByName_loop_hit (name : String) (pre : List EnumPair) (p : EnumPair)
    (post : List EnumPair) (r : Nat) (hpre : ∀ q ∈ pre, q.Name ≠ name) (hp : p.Name = name) :
    EnumTypeInfo.GetEnumValueByName.loop name (pre ++ p :: post) r = p.Value := by
  induction pre with
  | nil => simp [EnumTypeInfo.GetEnumValueByName.loop, hp]
  | cons q rest ih =>
    have hq : q.Name ≠ name := hpre q (List.mem_cons_self _ _)
    simp only [List.cons_append, EnumTypeInfo.GetEnumValueByName.loop, hq, if_false]
    exact ih (fun x hx => hpre x (List.mem_cons_of_mem _ hx))

theorem GetEnumNameByValue_loop_miss (value : Nat) (l : List EnumPair) (r : String)
    (h : ∀ q ∈ l, q.Value ≠ value) : EnumTypeInfo.GetEnumNameByValue.loop value l r = r := by
  induction l with
  | nil => rfl
  | cons q rest ih =>
    have hq : q.Value ≠ value := h q (List.mem_cons_self _ _)
    simp only [EnumTypeInfo.GetEnumNameByValue.loop, hq, if_false]
    exact ih (fun x hx => h x (List.mem_cons_of_mem _ hx))

theorem GetEnumNameByValue_loop_hit (value : Nat) (pre : List EnumPair) (p : EnumPair)
    (post : List EnumPair) (r : String) (hpre : ∀ q ∈ pre, q.Value ≠ value)
    (hp : p.Value = value) :
    EnumTypeInfo.GetEnumNameByValue.loop value (pre ++ p :: post) r = p.Name := by
  induction pre with
  | nil => simp [EnumTypeInfo.GetEnumNameByValue.loop, hp]
  | cons q rest ih =>
    have hq : q.Value ≠ value := hpre q (List.mem_cons_self _ _)
    simp only [List.cons_append, EnumTypeInfo.GetEnumNameByValue.loop, hq, if_false]
    exact ih (fun x hx => hpre x (List.mem_cons_of_mem _ hx))

/-! ## The enumeration descriptor -/

/-- C1: for every enumeration descriptor (duplicates allowed), every `size_t` width `w` and
every string `n`, `GetEnumValueByName(n)` is the `Value` of the first entry in insertion order
whose `Name` equals `n` (the entry `p` of any split `pre ++ p :: post` of the entry list in
which no entry of `pre` is named `n`), and it is the maximum `size_t` value `2 ^ w - 1` when
no entry is named `n`. -/
theorem C1_GetEnumValueByName_first_match (w : Nat) (e : EnumTypeInfo) (n : String) :
    (∀ (pre : List EnumPair) (p : EnumPair) (post : List EnumPair),
        e.Enums = pre ++ p :: post → (∀ q ∈ pre, q.Name ≠ n) → p.Name = n →
        e.GetEnumValueByName w n = p.Value) ∧
    ((∀ q ∈ e.Enums, q.Name ≠ n) → e.GetEnumValueByName w n = 2 ^ w - 1) := by
  constructor
  · intro pre p post hsplit hpre hp
    unfold EnumTypeInfo.GetEnumValueByName
    rw [hsplit]
    exact GetEnumValueByName_loop_hit n pre p post _ hpre hp
  · intro hmiss
    unfold EnumTypeInfo.GetEnumValueByName
    rw [GetEnumValueByName_loop_miss n e.Enums _ hmiss]
    exact toSizeT_neg_one w

/-- C1 on the running example with a 64-bit `size_t`: the lookup of `"C"` gives 1 and the
lookup of the absent name `"Z"` gives the sentinel `2 ^ 64 - 1`. -/
theorem C1_GetEnumValueByName_first_match_witness :
    exampleEnum.GetEnumValueByName 64 "C" = 1 ∧
    exampleEnum.GetEnumValueByName 64 "Z" = 2 ^ 64 - 1 :=
  ⟨(C1_GetEnumValueByName_first_match 64 exampleEnum "C").1
      [⟨"A", 1⟩, ⟨"B", 2⟩] ⟨"C", 1⟩ [] rfl (by decide) rfl,
   (C1_GetEnumValueByName_first_match 64 exampleEnum "Z").2 (by decide)⟩

/-- C2: for every enumeration descriptor (duplicates allowed) and every value `v`,
`GetEnumNameByValue(v)` is the `Name` of the first entry in insertion order whose `Value`
equals `v`, and it is the literal string `"Unknown"` when no entry has that value. -/
theorem C2_GetEnumNameByValue_first_match (e : EnumTypeInfo) (v : Nat) :
    (∀ (pre : List EnumPair) (p : EnumPair) (post : List EnumPair),
        e.Enums = pre ++ p :: post → (∀ q ∈ pre, q.Value ≠ v) → p.Value = v →
        e.GetEnumNameByValue v = p.Name) ∧
    ((∀ q ∈ e.Enums, q.Value ≠ v) → e.GetEnumNameByValue v = "Unknown") := by
  constructor
  · intro pre p post hsplit hpre hp
    unfold EnumTypeInfo.GetEnumNameByValue
    rw [hsplit]
    exact GetEnumNameByValue_loop_hit v pre p post _ hpre hp
  · intro hmiss
    unfold EnumTypeInfo.GetEnumNameByValue
    exact GetEnumNameByValue_loop_miss v e.Enums _ hmiss

/-- C2 on the running example: the lookup of the value 1, carried by `"A"` and by `"C"`,
gives `"A"` and not `"C"`; the lookup of the absent value 7 gives `"Unknown"`. -/
theorem C2_GetEnumNameByValue_first_match_witness :
    exampleEnum.GetEnumNameByValue 1 = "A" ∧ exampleEnum.GetEnumNameByValue 1 ≠ "C" ∧
    exampleEnum.GetEnumNameByValue 7 = "Unknown" :=
  ⟨(C2_GetEnumNameByValue_first_match exampleEnum 1).1 [] ⟨"A", 1⟩ [⟨"B", 2⟩, ⟨"C", 1⟩]
      rfl (by decide) rfl,
   by decide,
   (C2_GetEnumNameByValue_first_match exampleEnum 7).2 (by decide)⟩

theorem AddEnumPair_at_fresh (heap : Heap) (e : EnumTypeInfo) (name : String) (value : Nat) :
    SharedPtr.AddEnumPair (heap ++ [Object.Enum e]) ⟨some heap.length⟩ name value =
      heap ++ [Object.Enum (e.AddEnumPair name value)] := by
  simp [SharedPtr.AddEnumPair]

theorem foldl_AddEnumPair_at_fresh (pairs : EnumVector) (heap : Heap) (e : EnumTypeInfo) :
    pairs.foldl (fun h Pair => SharedPtr.AddEnumPair h ⟨some heap.length⟩ Pair.1 Pair.2)
        (heap ++ [Object.Enum e]) =
      heap ++ [Object.Enum { e with Enums := e.Enums ++ pairs.map toEnumPair }] := by
  induction pairs generalizing e with
  | nil => simp
  | cons P rest ih =>
    rw [List.foldl_cons, AddEnumPair_at_fresh, ih]
    simp [EnumTypeInfo.AddEnumPair, toEnumPair]

theorem foldl_AddEnumPair_Enums (args : EnumVector) (e : EnumTypeInfo) :
    args.foldl (fun d a => d.AddEnumPair a.1 a.2) e =
      { e with Enums := e.Enums ++ args.map toEnumPair } := by
  induction args generalizing e with
  | nil => simp
  | cons a rest ih =>
    rw [List.foldl_cons, ih]
    simp [EnumTypeInfo.AddEnumPair, toEnumPair]

theorem asEnum_at_fresh (heap : Heap) (e : EnumTypeInfo) :
    SharedPtr.asEnum (heap ++ [Object.Enum e]) ⟨some heap.length⟩ = some e := by
  simp [SharedPtr.asEnum]

/-- C3: `EnumTypeInfo::Create(name)` yields a pointer to a new descriptor with
`GetName() = name` and `GetEnumCount() = 0`; `AddEnumPair(n, v)` on any descriptor appends
exactly the entry `(n, v)` at the end, whatever the entries already present, and keeps the
earlier entries and the name; hence after the calls `AddEnumPair` with the arguments `args`
in order on a fresh descriptor (on the object, or through the pointer `Create` returned) the
entry list is `args` in call order and `GetEnumCount()` is the number of calls. -/
theorem C3_Create_AddEnumPair (heap : Heap) (name : String) (e : EnumTypeInfo) (n : String)
    (v : Nat) (args : EnumVector) :
    SharedPtr.asEnum (EnumTypeInfo.Create heap name).1 (EnumTypeInfo.Create heap name).2 =
        some (EnumTypeInfo.ctor name) ∧
    (EnumTypeInfo.ctor name).GetName = name ∧
    (EnumTypeInfo.ctor name).GetEnumCount = 0 ∧
    (e.AddEnumPair n v).Enums = e.Enums ++ [⟨n, v⟩] ∧
    (e.AddEnumPair n v).GetName = e.GetName ∧
    (e.AddEnumPair n v).GetEnumCount = e.GetEnumCount + 1 ∧
    (args.foldl (fun d a => d.AddEnumPair a.1 a.2) (EnumTypeInfo.ctor name)).Enums =
        args.map toEnumPair ∧
    (args.foldl (fun d a => d.AddEnumPair a.1 a.2) (EnumTypeInfo.ctor name)).GetEnumCount =
        args.length ∧
    (args.foldl (fun d a => d.AddEnumPair a.1 a.2) (EnumTypeInfo.ctor name)).GetName = name ∧
    SharedPtr.asEnum
        (args.foldl
          (fun h a => SharedPtr.AddEnumPair h (EnumTypeInfo.Create heap name).2 a.1 a.2)
          (EnumTypeInfo.Create heap name).1)
        (EnumTypeInfo.Create heap name).2 =
      some { Name := name, Enums := args.map toEnumPair } := by
  refine ⟨?_, rfl, rfl, rfl, rfl, ?_, ?_, ?_, ?_, ?_⟩
  · exact asEnum_at_fresh heap _
  · simp [EnumTypeInfo.AddEnumPair, EnumTypeInfo.GetEnumCount]
  · rw [foldl_AddEnumPair_Enums]; simp [EnumTypeInfo.ctor]
  · rw [foldl_AddEnumPair_Enums]; simp [EnumTypeInfo.ctor, EnumTypeInfo.GetEnumCount]
  · rw [foldl_AddEnumPair_Enums]; rfl
  · simp only [EnumTypeInfo.Create, make_shared]
    rw [foldl_AddEnumPair_at_fresh, asEnum_at_fresh]
    simp [EnumTypeInfo.ctor]

/-! ## The numeric descriptor -/

/-- C8: for every category value and every `isSigned`, the name of
`NumericTypeInfo(category, isSigned)` is given by the fixed table (`Int8` to `"int8"`,
`Int16` to `"int16"`, `Int32` to `"int32"`, `Int64` to `"int64"`, `Float` to `"float"`,
`Double` to `"double"`), it is `"Unknown"` for `Unknown` and for every category value that is
none of the six, it does not depend on `isSigned`, and `GetTypeCategory()` and
`IsSignedType()` return the constructor arguments. -/
theorem C8_NumericTypeInfo_name_table (category : NumericCategory) (isSigned other : Bool) :
    (NumericTypeInfo.ctor NumericCategory.Int8 isSigned).GetName = "int8" ∧
    (NumericTypeInfo.ctor NumericCategory.Int16 isSigned).GetName = "int16" ∧
    (NumericTypeInfo.ctor NumericCategory.Int32 isSigned).GetName = "int32" ∧
    (NumericTypeInfo.ctor NumericCategory.Int64 isSigned).GetName = "int64" ∧
    (NumericTypeInfo.ctor NumericCategory.Float isSigned).GetName = "float" ∧
    (NumericTypeInfo.ctor NumericCategory.Double isSigned).GetName = "double" ∧
    (NumericTypeInfo.ctor NumericCategory.Unknown isSigned).GetName = "Unknown" ∧
    (category ∉ [NumericCategory.Int8, NumericCategory.Int16, NumericCategory.Int32,
        NumericCategory.Int64, NumericCategory.Float, NumericCategory.Double] →
      (NumericTypeInfo.ctor category isSigned).GetName = "Unknown") ∧
    (NumericTypeInfo.ctor category isSigned).GetName =
      (NumericTypeInfo.ctor category other).GetName ∧
    (NumericTypeInfo.ctor category isSigned).GetTypeCategory = category ∧
    (NumericTypeInfo.ctor category isSigned).IsSignedType = isSigned := by
  refine ⟨rfl, rfl, rfl, rfl, rfl, rfl, rfl, ?_, rfl, rfl, rfl⟩
  intro h
  simp only [List.mem_cons, List.mem_singleton, List.not_mem_nil, or_false, not_or] at h
  obtain ⟨h1, h2, h3, h4, h5, h6⟩ := h
  simp [NumericTypeInfo.ctor, NumericTypeInfo.GetName, DynamicTypeInfo.GetName,
    NumericTypeInfo.GetCategoryName, h1, h2, h3, h4, h5, h6]

/-- C8 at the out-of-range category value 7 and at both signedness flags. -/
theorem C8_NumericTypeInfo_name_table_witness :
    (NumericTypeInfo.ctor ⟨7⟩ true).GetName = "Unknown" ∧
    (NumericTypeInfo.ctor ⟨7⟩ true).GetName = (NumericTypeInfo.ctor ⟨7⟩ false).GetName :=
  ⟨(C8_NumericTypeInfo_name_table ⟨7⟩ true false).2.2.2.2.2.2.2.1 (by decide),
   (C8_NumericTypeInfo_name_table ⟨7⟩ true false).2.2.2.2.2.2.2.2.1⟩

/-- C9 (as amended): `type_category_v<T>` is `Int8` for `char`, `Int16` for `short`, `Int32`
for `int`, `Int64` for `long long`, `Float` for `float`, `Double` for `double`, and `Unknown`
for every other type `T` and for no other; among the other types are the unsigned and
`signed char` variants, `bool`, `long`, `unsigned long` and every const, volatile or reference
form of any type.  A pointer-sized integer typedef is classified as the type it names: all
four are `Unknown` on LP64, `size_t` and `uintptr_t` are `Unknown` on LLP64 and ILP32 as well,
but `ptrdiff_t` and `intptr_t` are `Int64` on LLP64 (they name `long long`) and `Int32` on
ILP32 (they name `int`). -/
theorem C9_type_category_v_table (T U : CppType) :
    NumericTypeInfo.type_category_v CppType.char = NumericCategory.Int8 ∧
    NumericTypeInfo.type_category_v CppType.short = NumericCategory.Int16 ∧
    NumericTypeInfo.type_category_v CppType.int = NumericCategory.Int32 ∧
    NumericTypeInfo.type_category_v CppType.long_long = NumericCategory.Int64 ∧
    NumericTypeInfo.type_category_v CppType.float = NumericCategory.Float ∧
    NumericTypeInfo.type_category_v CppType.double = NumericCategory.Double ∧
    (T ∉ [CppType.char, CppType.short, CppType.int, CppType.long_long, CppType.float,
        CppType.double] →
      NumericTypeInfo.type_category_v T = NumericCategory.Unknown) ∧
    (∀ X ∈ [CppType.unsigned_char, CppType.unsigned_short, CppType.unsigned_int,
        CppType.unsigned_long_long, CppType.signed_char, CppType.bool, CppType.long,
        CppType.unsigned_long, CppType.const U, CppType.volatile U,
        CppType.const (CppType.volatile U), CppType.lref U, CppType.rref U,
        CppType.lref (CppType.const U)],
      NumericTypeInfo.type_category_v X = NumericCategory.Unknown) ∧
    (NumericTypeInfo.type_category_v T = NumericCategory.Unknown ↔
      T ∉ [CppType.char, CppType.short, CppType.int, CppType.long_long, CppType.float,
        CppType.double]) ∧
    (∀ X ∈ DataModel.LP64.pointer_sized,
      NumericTypeInfo.type_category_v X = NumericCategory.Unknown) ∧
    NumericTypeInfo.type_category_v DataModel.LLP64.size_t = NumericCategory.Unknown ∧
    NumericTypeInfo.type_category_v DataModel.LLP64.uintptr_t = NumericCategory.Unknown ∧
    NumericTypeInfo.type_category_v DataModel.LLP64.ptrdiff_t = NumericCategory.Int64 ∧
    NumericTypeInfo.type_category_v DataModel.LLP64.intptr_t = NumericCategory.Int64 ∧
    NumericTypeInfo.type_category_v DataModel.ILP32.size_t = NumericCategory.Unknown ∧
    NumericTypeInfo.type_category_v DataModel.ILP32.uintptr_t = NumericCategory.Unknown ∧
    NumericTypeInfo.type_category_v DataModel.ILP32.ptrdiff_t = NumericCategory.Int32 ∧
    NumericTypeInfo.type_category_v DataModel.ILP32.intptr_t = NumericCategory.Int32 := by
  have hother : ∀ X : CppType, X ∉ [CppType.char, CppType.short, CppType.int,
      CppType.long_long, CppType.float, CppType.double] →
      NumericTypeInfo.type_category_v X = NumericCategory.Unknown := by
    intro X h
    simp only [List.mem_cons, List.mem_singleton, List.not_mem_nil, or_false, not_or] at h
    obtain ⟨h1, h2, h3, h4, h5, h6⟩ := h
    simp [NumericTypeInfo.type_category_v, is_same_v, h1, h2, h3, h4, h5, h6]
  have hsix : ∀ X : CppType, X ∈ [CppType.char, CppType.short, CppType.int,
      CppType.long_long, CppType.float, CppType.double] →
      NumericTypeInfo.type_category_v X ≠ NumericCategory.Unknown := by
    intro X h
    simp only [List.mem_cons, List.mem_singleton, List.not_mem_nil, or_false] at h
    rcases h with h | h | h | h | h | h <;> subst h <;> decide
  refine ⟨rfl, rfl, rfl, rfl, rfl, rfl, hother T, ?_, ⟨?_, hother T⟩, by decide, rfl, rfl, rfl,
    rfl, rfl, rfl, rfl, rfl⟩
  · intro X hX
    apply hother
    simp only [List.mem_cons, List.mem_singleton, List.not_mem_nil, or_false] at hX ⊢
    rcases hX with h | h | h | h | h | h | h | h | h | h | h | h | h | h <;> subst h <;> simp
  · intro hU hmem
    exact hsix T hmem hU

/-- C9 at `unsigned int` and at `const int`. -/
theorem C9_type_category_v_table_witness :
    NumericTypeInfo.type_category_v CppType.unsigned_int = NumericCategory.Unknown ∧
    NumericTypeInfo.type_category_v (CppType.const CppType.int) = NumericCategory.Unknown :=
  ⟨(C9_type_category_v_table CppType.unsigned_int CppType.int).2.2.2.2.2.2.1 (by decide),
   (C9_type_category_v_table CppType.unsigned_int CppType.int).2.2.2.2.2.2.2.1
      (CppType.const CppType.int) (by decide)⟩

/-- C9 as stated fails: pointer-sized integer types are not always classified as `Unknown`.
On LLP64 `intptr_t` names `long long` and is classified as `Int64`, on ILP32 it names `int`
and is classified as `Int32`; so it is false that on each of the three data models every
pointer-sized integer type is `Unknown`. -/
theorem C9_pointer_sized_not_always_Unknown :
    NumericTypeInfo.type_category_v DataModel.LLP64.intptr_t = NumericCategory.Int64 ∧
    NumericTypeInfo.type_category_v DataModel.LLP64.intptr_t ≠ NumericCategory.Unknown ∧
    NumericTypeInfo.type_category_v DataModel.ILP32.intptr_t = NumericCategory.Int32 ∧
    NumericTypeInfo.type_category_v DataModel.ILP32.intptr_t ≠ NumericCategory.Unknown ∧
    ¬ (∀ M ∈ [DataModel.LP64, DataModel.LLP64, DataModel.ILP32], ∀ X ∈ M.pointer_sized,
        NumericTypeInfo.type_category_v X = NumericCategory.Unknown) := by
  refine ⟨rfl, by decide, rfl, by decide, ?_⟩
  intro h
  have h1 := h DataModel.LLP64 (by simp) DataModel.LLP64.intptr_t
    (by simp [DataModel.pointer_sized])
  exact absurd h1 (by decide)

/-! ## The registry -/

theorem find_assign_same (m : UnorderedMap) (key : String) (value : SharedPtr) :
    UnorderedMap.find (UnorderedMap.assign m key value) key = some value := by
  induction m with
  | nil => simp [UnorderedMap.assign, UnorderedMap.find]
  | cons kv rest ih =>
    obtain ⟨k, v⟩ := kv
    by_cases h : k = key
    · simp [UnorderedMap.assign, UnorderedMap.find, h]
    · simp [UnorderedMap.assign, UnorderedMap.find, h, ih]

theorem find_assign_other (m : UnorderedMap) (key other : String) (value : SharedPtr)
    (h : other ≠ key) :
    UnorderedMap.find (UnorderedMap.assign m key value) other = UnorderedMap.find m other := by
  induction m with
  | nil =>
    have h2 : key ≠ other := fun e => h e.symm
    simp [UnorderedMap.assign, UnorderedMap.find, h2]
  | cons kv rest ih =>
    obtain ⟨k, v⟩ := kv
    by_cases hk : k = key
    · have h2 : key ≠ other := fun e => h e.symm
      simp [UnorderedMap.assign, UnorderedMap.find, hk, h2]
    · simp [UnorderedMap.assign, UnorderedMap.find, hk, ih]

theorem find_absent (m : UnorderedMap) (key : String) (h : ∀ kv ∈ m, kv.1 ≠ key) :
    UnorderedMap.find m key = none := by
  induction m with
  | nil => rfl
  | cons kv rest ih =>
    obtain ⟨k, v⟩ := kv
    have hk : k ≠ key := h (k, v) (List.mem_cons_self _ _)
    simp only [UnorderedMap.find, hk, if_false]
    exact ih (fun x hx => h x (List.mem_cons_of_mem _ hx))

theorem GetTypeInfo_RegistTypeInfo_same (r : TypeInfoRegistry) (X : String) (d : SharedPtr) :
    (r.RegistTypeInfo X d).GetTypeInfo X = d := by
  simp [TypeInfoRegistry.GetTypeInfo, TypeInfoRegistry.RegistTypeInfo, find_assign_same]

theorem GetTypeInfo_RegistTypeInfo_other (r : TypeInfoRegistry) (X Y : String) (d : SharedPtr)
    (h : Y ≠ X) : (r.RegistTypeInfo X d).GetTypeInfo Y = r.GetTypeInfo Y := by
  simp [TypeInfoRegistry.GetTypeInfo, TypeInfoRegistry.RegistTypeInfo,
    find_assign_other _ _ _ _ h]

/-- C4: for every registry state (also one in which `X` already has an entry), every name
`X` and every descriptor reference `d`, `GetTypeInfo(X)` after `RegistTypeInfo(X, d)` is
exactly `d`; in particular of two registrations under `X` the last one wins. -/
theorem C4_RegistTypeInfo_GetTypeInfo_roundtrip (s : State) (X : String) (d d0 : SharedPtr) :
    ((Call.run s (Call.RegistTypeInfo X d)).1).Registry.GetTypeInfo X = d ∧
    (Call.run (Call.run s (Call.RegistTypeInfo X d)).1 (Call.GetTypeInfo X)).2 = d ∧
    ((s.Registry.RegistTypeInfo X d0).RegistTypeInfo X d).GetTypeInfo X = d := by
  refine ⟨?_, ?_, ?_⟩
  · exact GetTypeInfo_RegistTypeInfo_same _ _ _
  · exact GetTypeInfo_RegistTypeInfo_same _ _ _
  · exact GetTypeInfo_RegistTypeInfo_same _ _ _

theorem RegistEnumTypeInfo_present (s : State) (E : String) (entries : EnumVector)
    (h : (s.Registry.GetTypeInfo E).get ≠ none) :
    RegistEnumTypeInfo s E entries =
      (s, CastDynamicTypeInfo_shared TypeId.EnumTypeInfo s.heap (s.Registry.GetTypeInfo E)) := by
  simp [RegistEnumTypeInfo, h]

theorem RegistEnumTypeInfo_absent (s : State) (E : String) (entries : EnumVector)
    (h : (s.Registry.GetTypeInfo E).get = none) :
    RegistEnumTypeInfo s E entries =
      ({ heap := s.heap ++ [Object.Enum { Name := E, Enums := entries.map toEnumPair }],
         Registry := s.Registry.RegistTypeInfo E ⟨some s.heap.length⟩ },
       ⟨some s.heap.length⟩) := by
  simp only [RegistEnumTypeInfo, h, EnumTypeInfo.Create, make_shared]
  simp only [ne_eq, not_true_eq_false, if_false, reduceCtorEq, not_false_eq_true, if_true]
  rw [foldl_AddEnumPair_at_fresh]
  simp [EnumTypeInfo.ctor]

theorem RegistEnumTypeInfo_GetTypeInfo_other (s : State) (E N : String) (entries : EnumVector)
    (h : N ≠ E) :
    (RegistEnumTypeInfo s E entries).1.Registry.GetTypeInfo N = s.Registry.GetTypeInfo N := by
  by_cases hE : (s.Registry.GetTypeInfo E).get = none
  · rw [RegistEnumTypeInfo_absent s E entries hE]
    exact GetTypeInfo_RegistTypeInfo_other _ _ _ _ h
  · rw [RegistEnumTypeInfo_present s E entries hE]

theorem Call_run_GetTypeInfo_other (s : State) (c : Call) (n : String)
    (h : c.registeredName ≠ some n) :
    (c.run s).1.Registry.GetTypeInfo n = s.Registry.GetTypeInfo n := by
  cases c with
  | GetTypeInfo T => rfl
  | RegistTypeInfo T d =>
    have hn : n ≠ T := fun e => h (by simp [Call.registeredName, e])
    exact GetTypeInfo_RegistTypeInfo_other _ _ _ _ hn
  | RegistEnumTypeInfo E ps =>
    have hn : n ≠ E := fun e => h (by simp [Call.registeredName, e])
    exact RegistEnumTypeInfo_GetTypeInfo_other _ _ _ _ hn

theorem runCalls_GetTypeInfo_other (calls : List Call) (s : State) (n : String)
    (h : ∀ c ∈ calls, c.registeredName ≠ some n) :
    (runCalls s calls).Registry.GetTypeInfo n = s.Registry.GetTypeInfo n := by
  induction calls generalizing s with
  | nil => rfl
  | cons c rest ih =>
    have hrest : ∀ x ∈ rest, x.registeredName ≠ some n :=
      fun x hx => h x (List.mem_cons_of_mem _ hx)
    have hc := Call_run_GetTypeInfo_other s c n (h c (List.mem_cons_self _ _))
    simp only [runCalls, List.foldl_cons] at ih ⊢
    rw [ih (c.run s).1 hrest, hc]

/-- C5: `GetTypeInfo` is empty for every name without an entry in the registry: a name `n`
that no element of the map carries gives the empty pointer; after any finite sequence of
calls of `RegistTypeInfo`, `RegistEnumTypeInfo` (and `GetTypeInfo`) from the initial empty
registry, `GetTypeInfo(n)` is empty for every `n` that was the name argument of none of the
registering calls; and a call of `GetTypeInfo` leaves the whole state unchanged. -/
theorem C5_GetTypeInfo_absent_is_null (calls : List Call) (n : String) (s : State) :
    ((∀ kv ∈ s.Registry.TypeInfoMap, kv.1 ≠ n) → s.Registry.GetTypeInfo n = SharedPtr.null) ∧
    ((∀ c ∈ calls, c.registeredName ≠ some n) →
      (Call.run (runCalls State.initial calls) (Call.GetTypeInfo n)).2 = SharedPtr.null) ∧
    (Call.run s (Call.GetTypeInfo n)).1 = s := by
  refine ⟨?_, ?_, rfl⟩
  · intro h
    simp [TypeInfoRegistry.GetTypeInfo, find_absent _ _ h]
  · intro h
    show (runCalls State.initial calls).Registry.GetTypeInfo n = SharedPtr.null
    rw [runCalls_GetTypeInfo_other calls State.initial n h]
    rfl

/-- C5 after registering a null pointer under `"A"`, an enumeration under `"B"` and looking
up `"C"`: the name `"C"` has no entry and its lookup is empty. -/
theorem C5_GetTypeInfo_absent_is_null_witness :
    (Call.run
      (runCalls State.initial
        [Call.RegistTypeInfo "A" SharedPtr.null, Call.RegistEnumTypeInfo "B" [("x", 1)],
          Call.GetTypeInfo "C"])
      (Call.GetTypeInfo "C")).2 = SharedPtr.null ∧
    TypeInfoRegistry.instance_initial.GetTypeInfo "C" = SharedPtr.null :=
  ⟨(C5_GetTypeInfo_absent_is_null
      [Call.RegistTypeInfo "A" SharedPtr.null, Call.RegistEnumTypeInfo "B" [("x", 1)],
        Call.GetTypeInfo "C"] "C" State.initial).2.1 (by decide),
   (C5_GetTypeInfo_absent_is_null [] "C" State.initial).1 (by decide)⟩

theorem dynamic_cast_at_fresh (heap : Heap) (e : EnumTypeInfo) :
    dynamic_cast TypeId.EnumTypeInfo (heap ++ [Object.Enum e]) (some heap.length) =
      some heap.length := by
  simp [dynamic_cast, TypeId.is_base_of, Object.typeid]

/-- C6: for every state, name `E` and entry lists `entries1`, `entries2`, the second of the
calls `RegistEnumTypeInfo(E, entries1)`, `RegistEnumTypeInfo(E, entries2)` returns the same
reference as the first and leaves the whole state as the first call left it: the registry
mapping and every object on the heap, in particular the entries of the returned descriptor. -/
theorem C6_RegistEnumTypeInfo_idempotent (s : State) (E : String)
    (entries1 entries2 : EnumVector) :
    (RegistEnumTypeInfo (RegistEnumTypeInfo s E entries1).1 E entries2).2 =
        (RegistEnumTypeInfo s E entries1).2 ∧
    (RegistEnumTypeInfo (RegistEnumTypeInfo s E entries1).1 E entries2).1 =
        (RegistEnumTypeInfo s E entries1).1 ∧
    (RegistEnumTypeInfo (RegistEnumTypeInfo s E entries1).1 E entries2).1.Registry =
        (RegistEnumTypeInfo s E entries1).1.Registry ∧
    SharedPtr.asEnum (RegistEnumTypeInfo (RegistEnumTypeInfo s E entries1).1 E entries2).1.heap
        (RegistEnumTypeInfo (RegistEnumTypeInfo s E entries1).1 E entries2).2 =
      SharedPtr.asEnum (RegistEnumTypeInfo s E entries1).1.heap
        (RegistEnumTypeInfo s E entries1).2 := by
  have key : RegistEnumTypeInfo (RegistEnumTypeInfo s E entries1).1 E entries2 =
      RegistEnumTypeInfo s E entries1 := by
    by_cases hE : (s.Registry.GetTypeInfo E).get = none
    · rw [RegistEnumTypeInfo_absent s E entries1 hE]
      have hget : (TypeInfoRegistry.RegistTypeInfo s.Registry E ⟨some s.heap.length⟩).GetTypeInfo E
          = ⟨some s.heap.length⟩ := GetTypeInfo_RegistTypeInfo_same _ _ _
      rw [RegistEnumTypeInfo_present _ E entries2 (by simp [hget])]
      simp only [hget, CastDynamicTypeInfo_shared, dynamic_pointer_cast, dynamic_cast_at_fresh]
    · rw [RegistEnumTypeInfo_present s E entries1 hE]
      exact RegistEnumTypeInfo_present s E entries2 hE
  rw [key]
  exact ⟨rfl, rfl, rfl, rfl⟩

theorem GetEnumValueByName_loop_map (n : String) (entries : EnumVector) (r : Nat) :
    EnumTypeInfo.GetEnumValueByName.loop n (entries.map toEnumPair) r =
      ((entries.find? (fun P => decide (P.1 = n))).map Prod.snd).getD r := by
  induction entries with
  | nil => rfl
  | cons P rest ih =>
    by_cases h : P.1 = n
    · simp [EnumTypeInfo.GetEnumValueByName.loop, toEnumPair, h]
    · simp [EnumTypeInfo.GetEnumValueByName.loop, toEnumPair, h, ih]

theorem GetEnumNameByValue_loop_map (v : Nat) (entries : EnumVector) (r : String) :
    EnumTypeInfo.GetEnumNameByValue.loop v (entries.map toEnumPair) r =
      ((entries.find? (fun P => decide (P.2 = v))).map Prod.fst).getD r := by
  induction entries with
  | nil => rfl
  | cons P rest ih =>
    by_cases h : P.2 = v
    · simp [EnumTypeInfo.GetEnumNameByValue.loop, toEnumPair, h]
    · simp [EnumTypeInfo.GetEnumNameByValue.loop, toEnumPair, h, ih]

/-- C7: in every state in which `GetTypeInfo(E)` is empty, `RegistEnumTypeInfo(E, entries)`
returns a non-empty pointer `r` to a new enumeration descriptor (the enum cast of `r` is `r`)
with `GetName() = E`, `GetEnumCount() = length(entries)` and the entry list `entries` in the
same order, so that both lookups on it are first-match lookups over `entries`; afterwards
`GetTypeInfo(E)` returns `r`, `GetTypeInfo(N)` is unchanged for every other name `N`, and the
objects that existed before the call are unchanged. -/
theorem C7_RegistEnumTypeInfo_fresh (s : State) (E : String) (entries : EnumVector)
    (h : (s.Registry.GetTypeInfo E).get = none) :
    (RegistEnumTypeInfo s E entries).2.get ≠ none ∧
    CastDynamicTypeInfo_shared TypeId.EnumTypeInfo (RegistEnumTypeInfo s E entries).1.heap
        (RegistEnumTypeInfo s E entries).2 = (RegistEnumTypeInfo s E entries).2 ∧
    (∃ d : EnumTypeInfo,
      SharedPtr.asEnum (RegistEnumTypeInfo s E entries).1.heap
          (RegistEnumTypeInfo s E entries).2 = some d ∧
      d.GetName = E ∧ d.GetEnumCount = entries.length ∧ d.Enums = entries.map toEnumPair ∧
      (∀ (w : Nat) (n : String), d.GetEnumValueByName w n =
        ((entries.find? (fun P => decide (P.1 = n))).map Prod.snd).getD (2 ^ w - 1)) ∧
      (∀ v : Nat, d.GetEnumNameByValue v =
        ((entries.find? (fun P => decide (P.2 = v))).map Prod.fst).getD "Unknown")) ∧
    (RegistEnumTypeInfo s E entries).1.Registry.GetTypeInfo E =
        (RegistEnumTypeInfo s E entries).2 ∧
    (∀ N : String, N ≠ E →
      (RegistEnumTypeInfo s E entries).1.Registry.GetTypeInfo N = s.Registry.GetTypeInfo N) ∧
    (∀ a : Nat, a < s.heap.length →
      (RegistEnumTypeInfo s E entries).1.heap[a]? = s.heap[a]?) := by
  rw [RegistEnumTypeInfo_absent s E entries h]
  refine ⟨by simp, ?_, ?_, ?_, ?_, ?_⟩
  · simp only [CastDynamicTypeInfo_shared, dynamic_pointer_cast, dynamic_cast_at_fresh]
  · refine ⟨{ Name := E, Enums := entries.map toEnumPair }, asEnum_at_fresh _ _, rfl, ?_, rfl,
      ?_, ?_⟩
    · simp [EnumTypeInfo.GetEnumCount]
    · intro w n
      simp only [EnumTypeInfo.GetEnumValueByName]
      rw [GetEnumValueByName_loop_map, toSizeT_neg_one]
    · intro v
      simp only [EnumTypeInfo.GetEnumNameByValue]
      rw [GetEnumNameByValue_loop_map]
  · exact GetTypeInfo_RegistTypeInfo_same _ _ _
  · intro N hN
    exact GetTypeInfo_RegistTypeInfo_other _ _ _ _ hN
  · intro a ha
    simp [List.getElem?_append_left ha]

/-- C7 on the initial state: registering `"E"` with the entries of the running example. -/
theorem C7_RegistEnumTypeInfo_fresh_witness :
    (State.initial.Registry.GetTypeInfo "E").get = none ∧
    SharedPtr.asEnum (RegistEnumTypeInfo State.initial "E" [("A", 1), ("B", 2), ("C", 1)]).1.heap
        (RegistEnumTypeInfo State.initial "E" [("A", 1), ("B", 2), ("C", 1)]).2 =
      some exampleEnum ∧
    (RegistEnumTypeInfo State.initial "E"
        [("A", 1), ("B", 2), ("C", 1)]).1.Registry.GetTypeInfo "E" =
      (RegistEnumTypeInfo State.initial "E" [("A", 1), ("B", 2), ("C", 1)]).2 :=
  ⟨by decide, by decide,
   (C7_RegistEnumTypeInfo_fresh State.initial "E" [("A", 1), ("B", 2), ("C", 1)]
      (by decide)).2.2.2.1⟩

/-! ## The downcast helpers -/

/-- C10: for every descriptor reference `d` and every requested class `T` among
`NumericTypeInfo`, `EnumTypeInfo`, `ClassTypeInfo`, the result of `CastDynamicTypeInfo<T>(d)`
is non-empty exactly when `d` is non-empty and the dynamic type of the object it refers to is
`T`; a non-empty result is `d` itself (the same object, which the cast does not touch);
otherwise the result is the empty pointer; and the stored pointer of the shared-ownership form
is the result of the raw-pointer form on the stored pointer of `d`. -/
theorem C10_CastDynamicTypeInfo_checked (T : TypeId) (heap : Heap) (d : SharedPtr)
    (hT : T ≠ TypeId.DynamicTypeInfo) :
    ((CastDynamicTypeInfo_shared T heap d).get ≠ none ↔
      ∃ (a : Nat) (o : Object), d.get = some a ∧ heap[a]? = some o ∧ o.typeid = T) ∧
    ((CastDynamicTypeInfo_shared T heap d).get ≠ none → CastDynamicTypeInfo_shared T heap d = d) ∧
    ((¬ ∃ (a : Nat) (o : Object), d.get = some a ∧ heap[a]? = some o ∧ o.typeid = T) →
      CastDynamicTypeInfo_shared T heap d = SharedPtr.null) ∧
    (CastDynamicTypeInfo_shared T heap d).get = CastDynamicTypeInfo_raw T heap d.get := by
  obtain ⟨p⟩ := d
  have hbase : ∀ U : TypeId, T.is_base_of U = decide (T = U) := by
    intro U
    simp [TypeId.is_base_of, hT]
  cases p with
  | none =>
    simp [CastDynamicTypeInfo_shared, CastDynamicTypeInfo_raw, dynamic_pointer_cast,
      dynamic_cast, hT, SharedPtr.null]
  | some a =>
    cases ho : heap[a]? with
    | none =>
      simp [CastDynamicTypeInfo_shared, CastDynamicTypeInfo_raw, dynamic_pointer_cast,
        dynamic_cast, hT, SharedPtr.null, ho]
    | some o =>
      by_cases hk : T = o.typeid
      · have hk2 : o.typeid = T := hk.symm
        simp [CastDynamicTypeInfo_shared, CastDynamicTypeInfo_raw, dynamic_pointer_cast,
          dynamic_cast, hT, SharedPtr.null, ho, hbase, hk2]
      · have hk2 : ¬ o.typeid = T := fun e => hk e.symm
        simp [CastDynamicTypeInfo_shared, CastDynamicTypeInfo_raw, dynamic_pointer_cast,
          dynamic_cast, hT, SharedPtr.null, ho, hbase, hk, hk2]

/-- C10 on the example heap: the numeric descriptor at address 0 cast to the enumeration
class is empty, cast to its own class it is the same pointer, and the object it refers to is
the numeric descriptor with its attributes. -/
theorem C10_CastDynamicTypeInfo_checked_witness :
    CastDynamicTypeInfo_shared TypeId.EnumTypeInfo exampleHeap ⟨some 0⟩ = SharedPtr.null ∧
    CastDynamicTypeInfo_shared TypeId.NumericTypeInfo exampleHeap ⟨some 0⟩ = ⟨some 0⟩ ∧
    exampleHeap[0]? = some (Object.Numeric (NumericTypeInfo.ctor NumericCategory.Int32 true)) :=
  ⟨(C10_CastDynamicTypeInfo_checked TypeId.EnumTypeInfo exampleHeap ⟨some 0⟩
      (by decide)).2.2.1
      (by
        rintro ⟨a, o, ha, ho, ht⟩
        have ha0 : 0 = a := Option.some.inj ha
        subst ha0
        have ho2 : Object.Numeric (NumericTypeInfo.ctor NumericCategory.Int32 true) = o :=
          Option.some.inj ho
        subst ho2
        exact absurd ht (by decide)),
   (C10_CastDynamicTypeInfo_checked TypeId.NumericTypeInfo exampleHeap ⟨some 0⟩
      (by decide)).2.1 (by decide),
   rfl⟩

/-! ## Further properties of the registry and of the enumeration lookups -/

/-- C14: in every state in which `GetTypeInfo(E)` is non-empty, `RegistEnumTypeInfo(E, entries)`
returns exactly `CastDynamicTypeInfo<EnumTypeInfo>(GetTypeInfo(E))`, whatever `entries` is, and
leaves the whole state (registry and heap) unchanged; in particular, when the object registered
under `E` is not an enumeration descriptor, the call returns the empty pointer. -/
theorem C14_RegistEnumTypeInfo_existing (s : State) (E : String) (entries : EnumVector)
    (h : (s.Registry.GetTypeInfo E).get ≠ none) :
    (RegistEnumTypeInfo s E entries).2 =
        CastDynamicTypeInfo_shared TypeId.EnumTypeInfo s.heap (s.Registry.GetTypeInfo E) ∧
    (RegistEnumTypeInfo s E entries).1 = s ∧
    (∀ (a : Nat) (o : Object), (s.Registry.GetTypeInfo E).get = some a → s.heap[a]? = some o →
      o.typeid ≠ TypeId.EnumTypeInfo → (RegistEnumTypeInfo s E entries).2 = SharedPtr.null) := by
  rw [RegistEnumTypeInfo_present s E entries h]
  refine ⟨rfl, rfl, ?_⟩
  intro a o ha ho hk
  have hk2 : ¬ TypeId.EnumTypeInfo = o.typeid := fun e => hk e.symm
  simp [CastDynamicTypeInfo_shared, dynamic_pointer_cast, dynamic_cast, ha, ho,
    TypeId.is_base_of, hk2]

/-- C14 on the example state: `"N"` holds a numeric descriptor, so registering an enumeration
under `"N"` returns the empty pointer and changes nothing. -/
theorem C14_RegistEnumTypeInfo_existing_witness :
    (exampleState.Registry.GetTypeInfo "N").get ≠ none ∧
    (RegistEnumTypeInfo exampleState "N" [("A", 1)]).2 = SharedPtr.null ∧
    (RegistEnumTypeInfo exampleState "N" [("A", 1)]).1 = exampleState :=
  ⟨by decide,
   (C14_RegistEnumTypeInfo_existing exampleState "N" [("A", 1)] (by decide)).2.2 0
      (Object.Numeric (NumericTypeInfo.ctor NumericCategory.Int32 true)) rfl rfl (by decide),
   (C14_RegistEnumTypeInfo_existing exampleState "N" [("A", 1)] (by decide)).2.1⟩

theorem GetEnumValueByName_loop_mem (name : String) (l : List EnumPair) (r : Nat) :
    EnumTypeInfo.GetEnumValueByName.loop name l r = r ∨
      (⟨name, EnumTypeInfo.GetEnumValueByName.loop name l r⟩ : EnumPair) ∈ l := by
  induction l with
  | nil => exact Or.inl rfl
  | cons q rest ih =>
    by_cases hq : q.Name = name
    · right
      simp only [EnumTypeInfo.GetEnumValueByName.loop, hq, if_true]
      rw [← hq]
      exact List.mem_cons_self _ _
    · simp only [EnumTypeInfo.GetEnumValueByName.loop, hq, if_false]
      rcases ih with h | h
      · exact Or.inl h
      · exact Or.inr (List.mem_cons_of_mem _ h)

/-- C15: the not-found sentinel of `GetEnumValueByName` collides with a legitimate value.
For every `size_t` width `w` there are a descriptor and a name `n` such that an entry named
`n` is present and the lookup of `n` is nevertheless the sentinel `2 ^ w - 1`; this happens
whenever the first entry named `n` has the maximum `size_t` as its `Value`.  Conversely, when
the result differs from the sentinel, the entry `(n, result)` is present in the descriptor. -/
theorem C15_sentinel_ambiguous (w : Nat) :
    (∃ (e : EnumTypeInfo) (n : String),
      (∃ p ∈ e.Enums, p.Name = n) ∧ e.GetEnumValueByName w n = 2 ^ w - 1) ∧
    (∀ (e : EnumTypeInfo) (n : String) (pre : List EnumPair) (p : EnumPair)
        (post : List EnumPair),
      e.Enums = pre ++ p :: post → (∀ q ∈ pre, q.Name ≠ n) → p.Name = n →
      p.Value = 2 ^ w - 1 → e.GetEnumValueByName w n = 2 ^ w - 1) ∧
    (∀ (e : EnumTypeInfo) (n : String), e.GetEnumValueByName w n ≠ 2 ^ w - 1 →
      (⟨n, e.GetEnumValueByName w n⟩ : EnumPair) ∈ e.Enums) := by
  refine ⟨?_, ?_, ?_⟩
  · refine ⟨{ Name := "E", Enums := [⟨"Max", 2 ^ w - 1⟩] }, "Max", ⟨⟨"Max", 2 ^ w - 1⟩, ?_, rfl⟩, ?_⟩
    · exact List.mem_cons_self _ _
    · simp [EnumTypeInfo.GetEnumValueByName, EnumTypeInfo.GetEnumValueByName.loop]
  · intro e n pre p post hsplit hpre hp hv
    unfold EnumTypeInfo.GetEnumValueByName
    rw [hsplit, GetEnumValueByName_loop_hit n pre p post _ hpre hp, hv]
  · intro e n hne
    unfold EnumTypeInfo.GetEnumValueByName at hne ⊢
    rcases GetEnumValueByName_loop_mem n e.Enums (toSizeT w (-1)) with h | h
    · rw [h, toSizeT_neg_one] at hne
      exact absurd rfl hne
    · exact h

/-- C15 with a 64-bit `size_t`: the descriptor with the single entry `("Max", 2 ^ 64 - 1)`
answers the sentinel for the present name `"Max"`, and on the running example the answer 1 for
`"C"` differs from the sentinel and `("C", 1)` is an entry. -/
theorem C15_sentinel_ambiguous_witness :
    EnumTypeInfo.GetEnumValueByName 64 { Name := "E", Enums := [⟨"Max", 2 ^ 64 - 1⟩] } "Max" =
      2 ^ 64 - 1 ∧
    (⟨"C", exampleEnum.GetEnumValueByName 64 "C"⟩ : EnumPair) ∈ exampleEnum.Enums :=
  ⟨(C15_sentinel_ambiguous 64).2.1 { Name := "E", Enums := [⟨"Max", 2 ^ 64 - 1⟩] } "Max" []
      ⟨"Max", 2 ^ 64 - 1⟩ [] rfl (by decide) rfl rfl,
   (C15_sentinel_ambiguous 64).2.2 exampleEnum "C" (by decide)⟩

theorem GetEnumValueByName_loop_distinct (l : List EnumPair) (p : EnumPair) (r : Nat)
    (hN : l.Pairwise (fun a b => a.Name ≠ b.Name)) (hp : p ∈ l) :
    EnumTypeInfo.GetEnumValueByName.loop p.Name l r = p.Value := by
  induction l with
  | nil => exact absurd hp (List.not_mem_nil _)
  | cons q rest ih =>
    rw [List.pairwise_cons] at hN
    rcases List.mem_cons.mp hp with h | h
    · subst h
      simp [EnumTypeInfo.GetEnumValueByName.loop]
    · have hq : q.Name ≠ p.Name := hN.1 p h
      simp only [EnumTypeInfo.GetEnumValueByName.loop, hq, if_false]
      exact ih hN.2 h

theorem GetEnumNameByValue_loop_distinct (l : List EnumPair) (p : EnumPair) (r : String)
    (hV : l.Pairwise (fun a b => a.Value ≠ b.Value)) (hp : p ∈ l) :
    EnumTypeInfo.GetEnumNameByValue.loop p.Value l r = p.Name := by
  induction l with
  | nil => exact absurd hp (List.not_mem_nil _)
  | cons q rest ih =>
    rw [List.pairwise_cons] at hV
    rcases List.mem_cons.mp hp with h | h
    · subst h
      simp [EnumTypeInfo.GetEnumNameByValue.loop]
    · have hq : q.Value ≠ p.Value := hV.1 p h
      simp only [EnumTypeInfo.GetEnumNameByValue.loop, hq, if_false]
      exact ih hV.2 h

/-- C16: on a descriptor whose entries have pairwise distinct names and pairwise distinct
values the two lookups are mutually inverse on the entries: for every entry `(n, v)`,
`GetEnumNameByValue(GetEnumValueByName(n)) = n` and `GetEnumValueByName(GetEnumNameByValue(v)) = v`
(for every `size_t` width, also when `v` is the sentinel or `n` is `"Unknown"`). -/
theorem C16_lookups_inverse_on_distinct (w : Nat) (e : EnumTypeInfo)
    (hN : e.Enums.Pairwise (fun a b => a.Name ≠ b.Name))
    (hV : e.Enums.Pairwise (fun a b => a.Value ≠ b.Value)) :
    ∀ p ∈ e.Enums,
      e.GetEnumNameByValue (e.GetEnumValueByName w p.Name) = p.Name ∧
      e.GetEnumValueByName w (e.GetEnumNameByValue p.Value) = p.Value := by
  intro p hp
  have h1 : e.GetEnumValueByName w p.Name = p.Value :=
    GetEnumValueByName_loop_distinct e.Enums p _ hN hp
  have h2 : e.GetEnumNameByValue p.Value = p.Name :=
    GetEnumNameByValue_loop_distinct e.Enums p _ hV hp
  exact ⟨by rw [h1]; exact h2, by rw [h2]; exact h1⟩

/-- C16 on the descriptor with the entries `("A",1), ("B",2)`, at the entry `("B",2)`; and
without distinctness the round trip fails: on the running example the round trip of `"C"`
gives `"A"`. -/
theorem C16_lookups_inverse_on_distinct_witness :
    (EnumTypeInfo.GetEnumNameByValue { Name := "E", Enums := [⟨"A", 1⟩, ⟨"B", 2⟩] }
        (EnumTypeInfo.GetEnumValueByName 64 { Name := "E", Enums := [⟨"A", 1⟩, ⟨"B", 2⟩] } "B")
      = "B" ∧
    EnumTypeInfo.GetEnumValueByName 64 { Name := "E", Enums := [⟨"A", 1⟩, ⟨"B", 2⟩] }
        (EnumTypeInfo.GetEnumNameByValue { Name := "E", Enums := [⟨"A", 1⟩, ⟨"B", 2⟩] } 2)
      = 2) ∧
    exampleEnum.GetEnumNameByValue (exampleEnum.GetEnumValueByName 64 "C") = "A" :=
  ⟨C16_lookups_inverse_on_distinct 64 { Name := "E", Enums := [⟨"A", 1⟩, ⟨"B", 2⟩] }
      (by decide) (by decide) ⟨"B", 2⟩ (by decide),
   by decide⟩

/-- C17: `RegistTypeInfo(X, d)` changes only the entry for `X`: for every state, every
descriptor reference `d` and every name `Y` different from `X`, `GetTypeInfo(Y)` returns after
the call what it returned before; the heap is not touched. -/
theorem C17_RegistTypeInfo_frame (s : State) (X Y : String) (d : SharedPtr) (h : Y ≠ X) :
    (Call.run (Call.run s (Call.RegistTypeInfo X d)).1 (Call.GetTypeInfo Y)).2 =
        (Call.run s (Call.GetTypeInfo Y)).2 ∧
    (s.Registry.RegistTypeInfo X d).GetTypeInfo Y = s.Registry.GetTypeInfo Y ∧
    (Call.run s (Call.RegistTypeInfo X d)).1.heap = s.heap :=
  ⟨GetTypeInfo_RegistTypeInfo_other _ _ _ _ h, GetTypeInfo_RegistTypeInfo_other _ _ _ _ h, rfl⟩

/-- C17 on the example state: overwriting `"N"` leaves the lookup of `"E"` as it was. -/
theorem C17_RegistTypeInfo_frame_witness :
    (exampleState.Registry.RegistTypeInfo "N" SharedPtr.null).GetTypeInfo "E" = ⟨some 1⟩ ∧
    exampleState.Registry.GetTypeInfo "E" = ⟨some 1⟩ :=
  ⟨((C17_RegistTypeInfo_frame exampleState "N" "E" SharedPtr.null (by decide)).2.1).trans
      (by decide),
   by decide⟩

theorem RegistEnumTypeInfo_Registry_ne_iff (t : State) (X : String) (entries : EnumVector) :
    (RegistEnumTypeInfo t X entries).1.Registry ≠ t.Registry ↔
      (t.Registry.GetTypeInfo X).get = none := by
  by_cases hX : (t.Registry.GetTypeInfo X).get = none
  · simp only [hX, iff_true]
    rw [RegistEnumTypeInfo_absent t X entries hX]
    intro heq
    have h1 : (t.Registry.RegistTypeInfo X ⟨some t.heap.length⟩).GetTypeInfo X =
        ⟨some t.heap.length⟩ := GetTypeInfo_RegistTypeInfo_same _ _ _
    simp only at heq
    rw [heq, SharedPtr.mk.injEq] at h1
    rw [show (t.Registry.GetTypeInfo X).get = some t.heap.length from h1] at hX
    exact absurd hX (by simp)
  · simp only [hX, iff_false, ne_eq, not_not]
    rw [RegistEnumTypeInfo_present t X entries hX]

/-- C18: an entry registered with a null pointer behaves as an absent one.  After
`RegistTypeInfo(X, null)` the lookup `GetTypeInfo(X)` is empty, and a following
`RegistEnumTypeInfo(X, entries)` creates a new enumeration descriptor named `X` with the entries
`entries`, stores it under `X` in place of the null pointer and returns it.  In every state,
`RegistEnumTypeInfo(X, entries)` modifies the registry (and the state) if and only if
`GetTypeInfo(X)` was empty before the call. -/
theorem C18_null_entry_as_absent (s t : State) (X : String) (entries : EnumVector) :
    (Call.run s (Call.RegistTypeInfo X SharedPtr.null)).1.Registry.GetTypeInfo X =
        SharedPtr.null ∧
    (RegistEnumTypeInfo (Call.run s (Call.RegistTypeInfo X SharedPtr.null)).1 X entries).2 =
        ⟨some s.heap.length⟩ ∧
    SharedPtr.asEnum
        (RegistEnumTypeInfo (Call.run s (Call.RegistTypeInfo X SharedPtr.null)).1 X entries).1.heap
        (RegistEnumTypeInfo (Call.run s (Call.RegistTypeInfo X SharedPtr.null)).1 X entries).2 =
      some { Name := X, Enums := entries.map toEnumPair } ∧
    (RegistEnumTypeInfo (Call.run s (Call.RegistTypeInfo X SharedPtr.null)).1 X
        entries).1.Registry.GetTypeInfo X =
      (RegistEnumTypeInfo (Call.run s (Call.RegistTypeInfo X SharedPtr.null)).1 X entries).2 ∧
    ((RegistEnumTypeInfo t X entries).1.Registry ≠ t.Registry ↔
      (t.Registry.GetTypeInfo X).get = none) ∧
    ((RegistEnumTypeInfo t X entries).1 ≠ t ↔ (t.Registry.GetTypeInfo X).get = none) := by
  have hnull : (Call.run s (Call.RegistTypeInfo X SharedPtr.null)).1.Registry.GetTypeInfo X =
      SharedPtr.null := GetTypeInfo_RegistTypeInfo_same _ _ _
  have hget : ((Call.run s (Call.RegistTypeInfo X SharedPtr.null)).1.Registry.GetTypeInfo X).get
      = none := by rw [hnull]; rfl
  have hheap : (Call.run s (Call.RegistTypeInfo X SharedPtr.null)).1.heap = s.heap := rfl
  refine ⟨hnull, ?_, ?_, ?_, RegistEnumTypeInfo_Registry_ne_iff t X entries, ?_⟩
  · rw [RegistEnumTypeInfo_absent _ X entries hget, hheap]
  · rw [RegistEnumTypeInfo_absent _ X entries hget, hheap]
    exact asEnum_at_fresh _ _
  · rw [RegistEnumTypeInfo_absent _ X entries hget]
    exact GetTypeInfo_RegistTypeInfo_same _ _ _
  · constructor
    · intro hne
      by_contra hX
      exact hne (by rw [RegistEnumTypeInfo_present t X entries hX])
    · intro hX heq
      exact (RegistEnumTypeInfo_Registry_ne_iff t X entries).mpr hX (by rw [heq])

/-! ## Trait extraction -/

theorem match_const_wrappers (X T : CppType) (h : raw_type.match_const X = some T) :
    T.wrappers + 1 = X.wrappers := by
  induction X generalizing T with
  | const Y _ =>
    simp only [raw_type.match_const, Option.some.injEq] at h
    subst h
    simp [CppType.wrappers]
  | volatile Y ih =>
    cases hm : raw_type.match_const Y with
    | none => simp [raw_type.match_const, hm] at h
    | some Y1 =>
      simp only [raw_type.match_const, hm, Option.map_some', Option.some.injEq] at h
      subst h
      simp [CppType.wrappers, ih Y1 hm]
  | array E N ih =>
    cases hm : raw_type.match_const E with
    | none => simp [raw_type.match_const, hm] at h
    | some E1 =>
      simp only [raw_type.match_const, hm, Option.map_some', Option.some.injEq] at h
      subst h
      simp [CppType.wrappers, ih E1 hm]
  | _ => simp [raw_type.match_const] at h

theorem match_volatile_wrappers (X T : CppType) (h : raw_type.match_volatile X = some T) :
    T.wrappers + 1 = X.wrappers := by
  induction X generalizing T with
  | volatile Y _ =>
    simp only [raw_type.match_volatile, Option.some.injEq] at h
    subst h
    simp [CppType.wrappers]
  | const Y ih =>
    cases hm : raw_type.match_volatile Y with
    | none => simp [raw_type.match_volatile, hm] at h
    | some Y1 =>
      simp only [raw_type.match_volatile, hm, Option.map_some', Option.some.injEq] at h
      subst h
      simp [CppType.wrappers, ih Y1 hm]
  | array E N ih =>
    cases hm : raw_type.match_volatile E with
    | none => simp [raw_type.match_volatile, hm] at h
    | some E1 =>
      simp only [raw_type.match_volatile, hm, Option.map_some', Option.some.injEq] at h
      subst h
      simp [CppType.wrappers, ih E1 hm]
  | _ => simp [raw_type.match_volatile] at h

theorem match_array_wrappers (X T : CppType) (h : raw_type.match_array X = some T) :
    T.wrappers + 1 = X.wrappers := by
  induction X generalizing T with
  | array E N _ =>
    simp only [raw_type.match_array, Option.some.injEq] at h
    subst h
    simp [CppType.wrappers]
  | const Y ih =>
    cases hm : raw_type.match_array Y with
    | none => simp [raw_type.match_array, hm] at h
    | some Y1 =>
      simp only [raw_type.match_array, hm, Option.map_some', Option.some.injEq] at h
      subst h
      simp [CppType.wrappers, ih Y1 hm]
  | volatile Y ih =>
    cases hm : raw_type.match_array Y with
    | none => simp [raw_type.match_array, hm] at h
    | some Y1 =>
      simp only [raw_type.match_array, hm, Option.map_some', Option.some.injEq] at h
      subst h
      simp [CppType.wrappers, ih Y1 hm]
  | _ => simp [raw_type.match_array] at h

theorem candidates_wrappers (X T : CppType) (h : T ∈ raw_type.candidates X) :
    T.wrappers + 1 = X.wrappers := by
  simp only [raw_type.candidates, List.mem_append, Option.mem_toList, Option.mem_def] at h
  rcases h with ((((h | h) | h) | h) | h) | h
  · exact match_const_wrappers X T h
  · exact match_volatile_wrappers X T h
  · cases X <;> simp [raw_type.match_lref] at h
    subst h
    simp [CppType.wrappers]
  · cases X <;> simp [raw_type.match_rref] at h
    subst h
    simp [CppType.wrappers]
  · cases X <;> simp [raw_type.match_pointer] at h
    subst h
    simp [CppType.wrappers]
  · exact match_array_wrappers X T h

theorem raw_type_go_finished (fuel : Nat) (X : CppType) (h : X.wrappers < fuel) :
    raw_type.go fuel X ≠ raw_type.Result.unfinished := by
  induction fuel generalizing X with
  | zero => exact absurd h (Nat.not_lt_zero _)
  | succ n ih =>
    unfold raw_type.go
    cases hc : raw_type.candidates X with
    | nil => simp
    | cons T rest =>
      cases rest with
      | nil =>
        have hT := candidates_wrappers X T (by rw [hc]; exact List.mem_cons_self _ _)
        exact ih T (by omega)
      | cons U rest2 => simp

theorem raw_type_finished (X : CppType) : raw_type X ≠ raw_type.Result.unfinished :=
  raw_type_go_finished _ X (Nat.lt_succ_self _)

theorem raw_type_go_stripped (fuel : Nat) (X B : CppType)
    (h : raw_type.go fuel X = raw_type.Result.Type_ B) : raw_type.candidates B = [] := by
  induction fuel generalizing X with
  | zero => simp [raw_type.go] at h
  | succ n ih =>
    unfold raw_type.go at h
    cases hc : raw_type.candidates X with
    | nil =>
      rw [hc] at h
      simp only [raw_type.Result.Type_.injEq] at h
      rw [← h]
      exact hc
    | cons T rest =>
      cases rest with
      | nil =>
        rw [hc] at h
        exact ih T h
      | cons U rest2 =>
        rw [hc] at h
        simp at h

theorem variable_traits_members (T : CppType) :
    variable_traits T =
      (variable_traits T).map (fun m =>
        { RawType := m.RawType, ValueType := T,
          ClassType := (member_variable_traits T).ObjectType }) := by
  unfold variable_traits variable_traits_base
  cases raw_type (member_variable_traits T).Type_ <;> rfl

/-- C11: the code gives `variable_traits<T>::ValueType = T`, the member-pointer type itself,
where the claim has the member's declared type `V`.  Whenever `variable_traits<T>` can be
instantiated its `ValueType` is `T`; for the member `int Foo::a`, with `T = int Foo::*`,
`ValueType` is `int Foo::*` and not `int`, while `member_variable_traits<T>::Type` is `int`.
The type `const int& Foo::*` of the claim's example is not a well-formed type. -/
theorem C11_ValueType_is_T_not_V :
    (∀ T : CppType, variable_traits_ValueType T = (variable_traits T).map (fun _ => T)) ∧
    (CppType.member_pointer Foo CppType.int).valid = true ∧
    variable_traits_ValueType (CppType.member_pointer Foo CppType.int) =
      some (CppType.member_pointer Foo CppType.int) ∧
    variable_traits_ValueType (CppType.member_pointer Foo CppType.int) ≠ some CppType.int ∧
    (member_variable_traits (CppType.member_pointer Foo CppType.int)).Type_ = CppType.int ∧
    variable_traits_ValueType (CppType.member_pointer Foo (CppType.const CppType.int)) ≠
      some (CppType.const CppType.int) ∧
    (CppType.member_pointer Foo (CppType.lref (CppType.const CppType.int))).valid = false := by
  refine ⟨?_, by decide, by decide, by decide, rfl, by decide, by decide⟩
  intro T
  unfold variable_traits_ValueType
  rw [variable_traits_members T]
  cases variable_traits T <;> rfl

/-- C12: `raw_type` does not reduce every nesting of wrappers to the base type.  For the member
`const volatile int Foo::c`, with `T = const volatile int Foo::*`, the partial specialisations
`raw_type<const T>` and `raw_type<volatile T>` both match `const volatile int`, the
instantiation is ambiguous and `variable_traits<T>` has no `RawType`; the same holds for the
member `const int Foo::d[3]`, matched by `raw_type<const T>` and `raw_type<T[N]>`.  Where a
single specialisation matches at every level the base type is reached (`const int`,
`const int* const`, `int[2][3]`, and the non-member `const int&`); the instantiation always
ends, and a `RawType` that exists is matched by no specialisation. -/
theorem C12_raw_type_ambiguous :
    (CppType.member_pointer Foo (CppType.const (CppType.volatile CppType.int))).valid = true ∧
    raw_type (CppType.const (CppType.volatile CppType.int)) = raw_type.Result.ambiguous ∧
    variable_traits_RawType
      (CppType.member_pointer Foo (CppType.const (CppType.volatile CppType.int))) = none ∧
    (CppType.member_pointer Foo (CppType.array (CppType.const CppType.int) 3)).valid = true ∧
    raw_type (CppType.array (CppType.const CppType.int) 3) = raw_type.Result.ambiguous ∧
    variable_traits_RawType
      (CppType.member_pointer Foo (CppType.array (CppType.const CppType.int) 3)) = none ∧
    variable_traits_RawType (CppType.member_pointer Foo (CppType.const CppType.int)) =
      some CppType.int ∧
    variable_traits_RawType
      (CppType.member_pointer Foo (CppType.const (CppType.pointer (CppType.const CppType.int))))
      = some CppType.int ∧
    variable_traits_RawType
      (CppType.member_pointer Foo (CppType.array (CppType.array CppType.int 3) 2)) =
      some CppType.int ∧
    variable_traits_RawType (CppType.lref (CppType.const CppType.int)) = some CppType.int ∧
    (∀ X : CppType, raw_type X ≠ raw_type.Result.unfinished) ∧
    (∀ X : CppType, ∃ r : raw_type.Result, raw_type X = r ∧
      (r = raw_type.Result.ambiguous ∨
        ∃ B : CppType, r = raw_type.Result.Type_ B ∧ raw_type.candidates B = [])) := by
  refine ⟨by decide, by decide, by decide, by decide, by decide, by decide, by decide,
    by decide, by decide, by decide, raw_type_finished, ?_⟩
  intro X
  refine ⟨raw_type X, rfl, ?_⟩
  cases hr : raw_type X with
  | Type_ B => exact Or.inr ⟨B, rfl, raw_type_go_stripped _ X B hr⟩
  | ambiguous => exact Or.inl rfl
  | unfinished => exact absurd hr (raw_type_finished X)

/-- C13: `member_variable_traits<V C::*>` has `ObjectType = C` and `Type = V`, every other
type has `ObjectType = void` and `Type = T` (also a cv-qualified member-pointer type such as
`int Foo::* const`), and `variable_traits<T>::ClassType` is that `ObjectType` whenever
`variable_traits<T>` can be instantiated.  It cannot always be: for
`T = const volatile int Foo::*` and for the non-member `T = const volatile int` the alias
`RawType` is ambiguous, so there is no `ClassType` where the claim has `Foo` and `void`. -/
theorem C13_ClassType_needs_RawType :
    (∀ C V : CppType,
      member_variable_traits (CppType.member_pointer C V) = { Type_ := V, ObjectType := C }) ∧
    (∀ T : CppType, (∃ C V : CppType, T = CppType.member_pointer C V) ∨
      member_variable_traits T = { Type_ := T, ObjectType := CppType.void }) ∧
    (∀ T : CppType, variable_traits_ObjectType T =
      (variable_traits T).map (fun _ => (member_variable_traits T).ObjectType)) ∧
    variable_traits_ObjectType (CppType.member_pointer Foo CppType.int) = some Foo ∧
    variable_traits_ObjectType CppType.int = some CppType.void ∧
    variable_traits_ObjectType (CppType.const (CppType.member_pointer Foo CppType.int)) =
      some CppType.void ∧
    (CppType.member_pointer Foo (CppType.const (CppType.volatile CppType.int))).valid = true ∧
    variable_traits_ObjectType
      (CppType.member_pointer Foo (CppType.const (CppType.volatile CppType.int))) = none ∧
    (CppType.const (CppType.volatile CppType.int)).valid = true ∧
    variable_traits_ObjectType (CppType.const (CppType.volatile CppType.int)) = none := by
  refine ⟨fun C V => rfl, ?_, ?_, by decide, by decide, by decide, by decide, by decide,
    by decide, by decide⟩
  · intro T
    cases T <;> first | exact Or.inr rfl | exact Or.inl ⟨_, _, rfl⟩
  · intro T
    unfold variable_traits_ObjectType
    rw [variable_traits_members T]
    cases variable_traits T <;> rfl

end NekiraReflect
